import Mathlib

/-!
A shallow embedding of the per-dataset ingestion context of
`opensanctions` (`opensanctions/core/context.py`), together with proofs
about its statement buffer, flush engine, run lifecycle controller,
resource manager and value lookup adapter.

Python state is threaded explicitly: the `Context` object's mutable
fields, the database session (pending, uncommitted operations plus the
committed tables) and the process-wide logging context form a `SysState`
record, and each method of `Context` becomes a state-passing function.
Exceptions become `Option`/`Except` results or an explicit outcome value.
-/

namespace OpenSanctions

/-! ## Data model

`Stmt` mirrors the statement dictionaries produced by
`Statement.from_entity`: the fields used by `Context.emit` and the store.
-/

structure Stmt where
  dataset : String
  entity_id : String
  prop : String
  value : String
  unique : Bool
  target : Bool
  deriving Repr, DecidableEq

/-- The deduplication key used at `context.py` line 94:
`key = (stmt["entity_id"], stmt["prop"], stmt["value"])`. -/
abbrev SKey := String × String × String

def skey (s : Stmt) : SKey := (s.entity_id, s.prop, s.value)

/-- An FtM entity as `Context.emit` sees it: an optional id, a `target`
flag, and its property/value pairs. -/
structure Entity where
  id : Option String
  target : Bool
  props : List (String × String)
  deriving Repr, DecidableEq

/-- Modelled from the spec: the statement decomposer
(`Statement.from_entity` in `opensanctions.model`, not part of the
sources under study).  Spec 4.3: "For each property-value pair on the
entity, produces one Statement carrying the entity's identifier, the
dataset, the property name, the value, the `unique` flag, and the
entity's `target` designation." -/
def Statement.from_entity (dataset : String) (e : Entity) (eid : String)
    (unique : Bool) : List Stmt :=
  e.props.map fun pv =>
    { dataset := dataset, entity_id := eid, prop := pv.1, value := pv.2,
      unique := unique, target := e.target }

/-! ## Resource manager (`fetch_resource`, claim C6)

The filesystem is the set of existing paths; every call to the external
download collaborator is recorded so "performs no network I/O" is a
statement about the `downloads` log. -/

structure FsState where
  files : List String
  downloads : List (String × String)
  deriving Repr, DecidableEq

/-- `Context.get_resource_path`: `self.path.joinpath(name)`. -/
def get_resource_path (datasetPath name : String) : String :=
  datasetPath ++ "/" ++ name

/-- Modelled from the spec: the fetch collaborator `fetch_download`
(`opensanctions.core.http`, not part of the sources under study).
Spec 4.2: a blocking fetch that writes the fetched content to the
destination path, so the path exists afterwards; the network transfer is
recorded in the `downloads` log. -/
def fetch_download (fs : FsState) (file_path url : String) : FsState :=
  { files := file_path :: fs.files,
    downloads := fs.downloads ++ [(file_path, url)] }

/-- `Context.fetch_resource` (`context.py` lines 30-36): compute the
resource path; if it does not exist, download into it; return the path. -/
def fetch_resource (fs : FsState) (datasetPath name url : String) :
    FsState × String :=
  let file_path := get_resource_path datasetPath name
  if file_path ∈ fs.files then (fs, file_path)
  else (fetch_download fs file_path url, file_path)

/-! ## Value lookup adapter (`lookup_value` / `lookup`, claim C7) -/

/-- The structured failure raised by datapatch on an unmatched strict
lookup; `Context.crawl` reads `exc.message`, `exc.lookup.name` and
`exc.value` from it. -/
structure LookupExc where
  message : String
  lookupName : String
  value : String
  deriving Repr, DecidableEq

/-- A dataset-declared mapping table (a datapatch `Lookup`): its name,
its rules mapping raw values to normalized values, and whether an
unmatched `get_value` raises instead of returning the default. -/
structure LookupTable where
  name : String
  required : Bool
  rules : List (String × String)
  deriving Repr, DecidableEq

def findRuleIn (rules : List (String × String)) (value : String) : Option String :=
  match rules with
  | [] => none
  | r :: rest => if r.1 = value then some r.2 else findRuleIn rest value

def LookupTable.findRule (t : LookupTable) (value : String) : Option String :=
  findRuleIn t.rules value

/-- Modelled from the spec: datapatch `Lookup.get_value(value, default)`
(external collaborator, spec 6): resolves the raw value against the
table's rules; on no match it either returns the default or raises a
`LookupException` (which of the two depends on the table's
configuration, covered by the `required` flag). -/
def LookupTable.get_value (t : LookupTable) (value : String)
    (default : Option String) : Except LookupExc (Option String) :=
  match t.findRule value with
  | some v => .ok (some v)
  | none =>
    if t.required then
      .error { message := "unmatched value", lookupName := t.name, value := value }
    else .ok default

/-- Modelled from the spec: datapatch `Lookup.match(value)` (external
collaborator).  Spec 4.1: the strict variant "surfaces a structured
failure (kind: UnmatchedLookupValue, carrying the table name and raw
value) when no rule matches". -/
def LookupTable.matchValue (t : LookupTable) (value : String) :
    Except LookupExc String :=
  match t.findRule value with
  | some v => .ok v
  | none =>
    .error { message := "unmatched value", lookupName := t.name, value := value }

/-- `Context.lookup_value` (`context.py` lines 62-66): return
`get_value(value, default=default)`, and on a `LookupException` return
the default. -/
def lookup_value (t : LookupTable) (value : String)
    (default : Option String) : Option String :=
  match t.get_value value default with
  | .ok v => v
  | .error _ => default

/-- `Context.lookup` (`context.py` lines 68-69): the strict variant,
propagating the datapatch failure. -/
def Context.lookup (t : LookupTable) (value : String) :
    Except LookupExc String :=
  t.matchValue value

/-! ## Resource export (`export_resource`, claim C8)

`export_resource` begins with `mime_type, _ = mimetypes.guess(path)`
when no MIME type is supplied.  The attribute access on the stdlib
module is modelled explicitly, because the Python `mimetypes` module
defines no attribute named `guess` (the inference function is
`guess_type`), so this access raises `AttributeError`. -/

inductive PyError where
  | attributeError (moduleName attr : String)
  deriving Repr, DecidableEq

/-- The public function attributes of the Python standard library module
`mimetypes` (Python 3.x): `guess` is not among them. -/
def mimetypesAttrs : List String :=
  ["guess_type", "guess_all_extensions", "guess_extension",
   "add_type", "init", "read_mime_types"]

/-- MIME inference from a file extension, standing in for the stdlib
`mimetypes.guess_type` on the extensions this repository uses. -/
def guess_type (path : String) : Option String :=
  if path.endsWith ".tsv" then some "text/tab-separated-values"
  else if path.endsWith ".csv" then some "text/csv"
  else if path.endsWith ".xml" then some "text/xml"
  else if path.endsWith ".json" then some "application/json"
  else none

/-- The Resource record saved by `Resource.save`. -/
structure ResourceRec where
  rel_path : String
  dataset : String
  checksum : List Nat
  mime_type : Option String
  size : Nat
  title : Option String
  deriving Repr, DecidableEq

/-- A streamed digest standing in for `hashlib.sha1`: the hash value is
a deterministic function of the bytes fed to `update`, here the byte
sequence itself, accumulated chunk by chunk. -/
def digestUpdate (digest : List Nat) (chunk : List Nat) : List Nat :=
  digest ++ chunk

/-- The streaming loop of `export_resource` (`context.py` lines 50-57):
read fixed-size chunks, add each chunk's length to `size` and feed it to
the digest, until the file is exhausted. -/
def streamChunks (content : List Nat) (digest : List Nat) (size : Nat) :
    List Nat × Nat :=
  match content with
  | [] => (digest, size)
  | b :: bs =>
    let chunk := (b :: bs).take 65536
    let rest := (b :: bs).drop 65536
    streamChunks rest (digestUpdate digest chunk) (size + chunk.length)
termination_by content.length
decreasing_by simp only [List.length_drop, List.length_cons]; omega

/-- `Context.export_resource` (`context.py` lines 44-60): when
`mime_type` is `None`, evaluate `mimetypes.guess(path)` — an attribute
access that fails, since the module has no such attribute — then stream
the file to compute checksum and size and save the Resource record. -/
def export_resource (content : List Nat) (datasetPath dataset path : String)
    (mime_type : Option String) (title : Option String) :
    Except PyError ResourceRec :=
  match mime_type with
  | none =>
    if "guess" ∈ mimetypesAttrs then
      exportBody content datasetPath dataset path (guess_type path) title
    else
      .error (.attributeError "mimetypes" "guess")
  | some mt => exportBody content datasetPath dataset path (some mt) title
where
  exportBody (content : List Nat) (datasetPath dataset path : String)
      (mime_type : Option String) (title : Option String) :
      Except PyError ResourceRec :=
    let digestSize := streamChunks content [] 0
    let rel_path := (path.drop (datasetPath.length + 1))
    .ok { rel_path := rel_path, dataset := dataset,
          checksum := digestSize.1, mime_type := mime_type,
          size := digestSize.2, title := title }

/-! ## Statement buffer, flush engine and run lifecycle controller

`Context._statements` is a Python dict keyed by `(entity_id, prop,
value)`; it is modelled as an association list with Python dict update
semantics (assignment to an existing key replaces the value in place,
assignment to a fresh key appends).  The database session is the pair of
committed tables and the ordered list of pending, uncommitted
operations; `commit` applies the pending operations, `rollback`
discards them. -/

inductive StoreOp where
  | upsertStmts (batch : List Stmt)
  | clearIssues (dataset : String)
  deriving Repr, DecidableEq

/-- An issue row: owning dataset and message. -/
structure Issue where
  dataset : String
  message : String
  deriving Repr, DecidableEq

/-- One statement row upserted into the committed table: the row with
the same dataset and dedup key is replaced in place, otherwise the
statement is appended. -/
def upsertStmt (table : List Stmt) (s : Stmt) : List Stmt :=
  if table.any fun r => r.dataset = s.dataset ∧ skey r = skey s then
    table.map fun r =>
      if r.dataset = s.dataset ∧ skey r = skey s then s else r
  else table ++ [s]

/-- Modelled from the spec: `Statement.upsert_many` and the session
transaction (`opensanctions.model`, not part of the sources under
study).  Spec 4.4/4.5: flush "performs a single batched upsert of all
buffered statements into the store"; the write stays uncommitted store
work until the controller commits, and "rollback already discarded
pending work" on the failure paths. -/
structure Store where
  stmtTable : List Stmt
  issueTable : List Issue
  pending : List StoreOp
  deriving Repr, DecidableEq

def Store.applyOp (st : Store) (op : StoreOp) : Store :=
  match op with
  | .upsertStmts batch =>
    { st with stmtTable := batch.foldl upsertStmt st.stmtTable }
  | .clearIssues ds =>
    { st with issueTable := st.issueTable.filter fun i => i.dataset ≠ ds }

/-- `db.session.commit()`: apply the pending operations in order to the
committed tables and clear the pending list. -/
def Store.commit (st : Store) : Store :=
  let applied := st.pending.foldl Store.applyOp { st with pending := [] }
  { applied with pending := [] }

/-- `db.session.rollback()`: discard the pending operations. -/
def Store.rollback (st : Store) : Store :=
  { st with pending := [] }

/-- Log records produced by the context's logger during a crawl. -/
inductive LogEntry where
  | debug (msg : String)
  | info (msg : String)
  | errorLookup (msg lookupName value : String)
  | exceptionLog (msg : String)
  deriving Repr, DecidableEq

/-- The state threaded through the context's methods: the `_statements`
buffer, the database session, the process-wide structlog context, the
log, and counters of the lifecycle events (commits, rollbacks and
`close` calls) used to state the controller claims. -/
structure SysState where
  dataset : String
  statements : List (SKey × Stmt)
  store : Store
  logCtx : Option String
  logs : List LogEntry
  commits : Nat
  rollbacks : Nat
  closes : Nat
  deriving Repr, DecidableEq

def bufKeys (buf : List (SKey × Stmt)) : List SKey := buf.map Prod.fst

/-- Python dict assignment `d[k] = v`: replace in place when the key is
present, append otherwise. -/
def dictInsert (buf : List (SKey × Stmt)) (k : SKey) (v : Stmt) :
    List (SKey × Stmt) :=
  if k ∈ bufKeys buf then
    buf.map fun p => if p.1 = k then (k, v) else p
  else buf ++ [(k, v)]

/-- Python dict lookup `d[k]` (as a partial lookup). -/
def lookupKey (buf : List (SKey × Stmt)) (k : SKey) : Option Stmt :=
  match buf with
  | [] => none
  | p :: rest => if p.1 = k then some p.2 else lookupKey rest k

/-- The merge loop of `emit` (`context.py` lines 93-95): for each
statement, `self._statements[key] = stmt`. -/
def mergeStmts (buf : List (SKey × Stmt)) (stmts : List Stmt) :
    List (SKey × Stmt) :=
  stmts.foldl (fun b s => dictInsert b (skey s) s) buf

/-- `Context.flush` (`context.py` lines 75-82): log, hand
`list(self._statements.values())` to `Statement.upsert_many`, and reset
the buffer to an empty dict. -/
def flush (st : SysState) : SysState :=
  { st with
    logs := st.logs ++ [.debug "Flushing statements to database..."],
    store := { st.store with
      pending := st.store.pending ++
        [.upsertStmts (st.statements.map Prod.snd)] },
    statements := [] }

/-- The two `ValueError`s raised by `emit`. The spec names them
`MissingIdentifierError` (line 87: "Entity has no ID") and
`EmptyEntityError` (line 92: "Entity has no properties"). -/
inductive EmitError where
  | missingId
  | emptyEntity
  deriving Repr, DecidableEq

/-- Line 88-89 of `context.py`: `if target is not None: entity.target = target`. -/
def applyTarget (e : Entity) (target : Option Bool) : Entity :=
  match target with
  | some t => { e with target := t }
  | none => e

/-- `Context.emit` (`context.py` lines 84-98), with the state threaded
in source order: the id check raises before anything is touched; the
decomposition's emptiness check raises before the merge loop; then the
statements are merged and, if the buffer size exceeds 50000, `flush`
runs before `emit` returns. -/
def emit (st : SysState) (e : Entity) (target : Option Bool)
    (unique : Bool) : SysState × Option EmitError :=
  match e.id with
  | none => (st, some .missingId)
  | some eid =>
    let e2 := applyTarget e target
    let stmts := Statement.from_entity st.dataset e2 eid unique
    if stmts.length = 0 then (st, some .emptyEntity)
    else
      let buf := mergeStmts st.statements stmts
      let st2 := { st with statements := buf }
      let st3 := if buf.length > 50000 then flush st2 else st2
      ({ st3 with logs := st3.logs ++ [.debug "Emitted"] }, none)

/-- One call a collection routine makes to `Context.emit`. -/
structure EmitCall where
  entity : Entity
  target : Option Bool
  unique : Bool
  deriving Repr, DecidableEq

/-- The pure decomposition a single `emit` call performs, independent of
the buffer: the id check, the target override, `Statement.from_entity`
and the emptiness check. -/
def decomposeCall (ds : String) (c : EmitCall) : Except EmitError (List Stmt) :=
  match c.entity.id with
  | none => .error .missingId
  | some eid =>
    let stmts := Statement.from_entity ds (applyTarget c.entity c.target) eid c.unique
    if stmts.length = 0 then .error .emptyEntity else .ok stmts

/-- Run a sequence of `emit` calls, stopping at the first raised
`ValueError` (which propagates out of the collection routine). -/
def runCalls (st : SysState) : List EmitCall → SysState × Option EmitError
  | [] => (st, none)
  | c :: cs =>
    match emit st c.entity c.target c.unique with
    | (st2, none) => runCalls st2 cs
    | (st2, some e) => (st2, some e)

/-- The statements the executed prefix of a run decomposes, in emission
order: the flattening of each successful call's statements, cut off at
the first failing call. -/
def traceCalls (ds : String) : List EmitCall → List Stmt
  | [] => []
  | c :: cs =>
    match decomposeCall ds c with
    | .error _ => []
    | .ok stmts => stmts ++ traceCalls ds cs

/-- How the collection routine's invocation ends, seen from the `try`
block of `Context.crawl`: normal return, `KeyboardInterrupt`,
`LookupException`, or any other exception. -/
inductive Outcome where
  | normal
  | interrupt
  | lookupExc (msg lookupName value : String)
  | otherExc (msg : String)
  deriving Repr, DecidableEq

/-- A collection routine, as the controller observes it: the sequence of
`emit` calls it performs, then how it returns or raises. -/
structure Routine where
  calls : List EmitCall
  outcome : Outcome
  deriving Repr, DecidableEq

/-- The exception (re-)raised out of `crawl`, if any. -/
inductive Exn where
  | interrupt
  deriving Repr, DecidableEq

/-- `Context.bind` (`context.py` lines 100-101). -/
def bind (st : SysState) : SysState :=
  { st with logCtx := some st.dataset }

/-- `Context.close` (`context.py` lines 143-146): clear the structlog
context variables and commit the session. -/
def close (st : SysState) : SysState :=
  let st2 := { st with logCtx := none, closes := st.closes + 1 }
  { st2 with store := st2.store.commit, commits := st2.commits + 1 }

def sysRollback (st : SysState) : SysState :=
  { st with store := st.store.rollback, rollbacks := st.rollbacks + 1 }

/-- `Issue.clear(self.dataset)` inside the run's transaction: a pending
clear of the dataset's issues, committed only at `close`. -/
def issueClear (st : SysState) : SysState :=
  { st with store := { st.store with
      pending := st.store.pending ++ [.clearIssues st.dataset] } }

/-- The body of the `try` block of `Context.crawl` up to and including
the collection routine (`context.py` lines 105-110): bind, clear
issues, log, run the routine's emit calls.  Returns the state and the
outcome the `try` block observes — a `ValueError` raised by `emit`
surfaces as an unexpected exception, otherwise the routine's own
outcome. -/
def crawlEntry (st : SysState) : SysState :=
  let st1 := bind st
  let st2 := issueClear st1
  { st2 with logs := st2.logs ++ [.info "Begin crawl"] }

def crawlBody (r : Routine) (st : SysState) : SysState × Outcome :=
  match runCalls (crawlEntry st) r.calls with
  | (st4, some _) => (st4, .otherExc "ValueError")
  | (st4, none) => (st4, r.outcome)

/-- `Context.crawl` (`context.py` lines 103-127): on normal return,
flush and log completion; on `KeyboardInterrupt`, roll back and
re-raise; on `LookupException`, roll back and log the error with the
lookup name and value; on any other exception, roll back and log it
with trace information; on every path, finally `close`. -/
def crawl (r : Routine) (st : SysState) : SysState × Option Exn :=
  match crawlBody r st with
  | (st1, .normal) =>
    let st2 := flush st1
    let st3 := { st2 with logs := st2.logs ++ [.info "Crawl completed"] }
    (close st3, none)
  | (st1, .interrupt) =>
    (close (sysRollback st1), some .interrupt)
  | (st1, .lookupExc msg lookupName value) =>
    let st2 := sysRollback st1
    let st3 := { st2 with logs := st2.logs ++ [.errorLookup msg lookupName value] }
    (close st3, none)
  | (st1, .otherExc _) =>
    let st2 := sysRollback st1
    let st3 := { st2 with logs := st2.logs ++ [.exceptionLog "Crawl failed"] }
    (close st3, none)

/-! ## Derived observations used by the statements of the claims -/

/-- The last statement in an emission trace whose dedup key is `k`. -/
def lastFor (trace : List Stmt) (k : SKey) : Option Stmt :=
  match trace with
  | [] => none
  | s :: rest =>
    match lastFor rest k with
    | some v => some v
    | none => if skey s = k then some s else none

/-- The batches handed to `Statement.upsert_many` that sit uncommitted
in the session. -/
def pendingBatches (ops : List StoreOp) : List (List Stmt) :=
  ops.filterMap fun op =>
    match op with
    | .upsertStmts b => some b
    | .clearIssues _ => none

/-- Every buffer entry's key is the dedup key of its statement (true of
`_statements` because line 95 only ever assigns `stmt` under its own
key). -/
def WellKeyed (buf : List (SKey × Stmt)) : Prop :=
  ∀ p ∈ buf, p.1 = skey p.2

/-- The run invariant behind claim C1: the buffer holds at most one
entry per dedup key, each entry sits under its statement's own key, any
held statement is the last one emitted for its key, and every batch
already handed to the store was key-deduplicated. -/
def RunInv (trace : List Stmt) (st : SysState) : Prop :=
  (bufKeys st.statements).Nodup ∧ WellKeyed st.statements ∧
  (∀ k v, lookupKey st.statements k = some v → lastFor trace k = some v) ∧
  (∀ b ∈ pendingBatches st.store.pending, (b.map skey).Nodup)

/-! ## Concrete fixtures used by the witness theorems -/

def initState : SysState :=
  { dataset := "us_bis_denied", statements := [],
    store := { stmtTable := [], issueTable := [], pending := [] },
    logCtx := none, logs := [], commits := 0, rollbacks := 0, closes := 0 }

def entA : Entity :=
  { id := some "e1", target := false,
    props := [("name", "Example Corp"), ("country", "us")] }

def entB : Entity :=
  { id := some "e1", target := true, props := [("name", "Example Corp")] }

def entNoId : Entity :=
  { id := none, target := false, props := [("name", "ghost")] }

def entNoProps : Entity :=
  { id := some "e2", target := false, props := [] }

def callA : EmitCall := { entity := entA, target := none, unique := false }

def callB : EmitCall := { entity := entB, target := some true, unique := true }

def routineBoom : Routine := { calls := [callA], outcome := .otherExc "boom" }

def routineInt : Routine := { calls := [], outcome := .interrupt }

def routineLook : Routine :=
  { calls := [], outcome := .lookupExc "unmatched value" "countries" "Sealand" }

def tableCC : LookupTable :=
  { name := "country_codes", required := true,
    rules := [("GB", "United Kingdom")] }

def fsHasFile : FsState :=
  { files := ["datasets/us_bis_denied/dpl.tsv"], downloads := [] }

def stmtB : Stmt :=
  { dataset := "us_bis_denied", entity_id := "e1", prop := "name",
    value := "Example Corp", unique := true, target := true }

/-! ## Helper lemmas: the buffer dictionary -/

theorem bufKeys_append (a b : List (SKey × Stmt)) :
    bufKeys (a ++ b) = bufKeys a ++ bufKeys b := by
  simp [bufKeys]

theorem bufKeys_replace (buf : List (SKey × Stmt)) (k : SKey) (v : Stmt) :
    bufKeys (buf.map fun p => if p.1 = k then (k, v) else p) = bufKeys buf := by
  induction buf with
  | nil => rfl
  | cons p rest ih =>
    by_cases h : p.1 = k
    · simp only [List.map_cons, bufKeys, h, if_pos] at ih ⊢
      simp [h, ih]
    · simp only [List.map_cons, bufKeys, h, if_neg] at ih ⊢
      simp [h, ih]

theorem bufKeys_dictInsert (buf : List (SKey × Stmt)) (k : SKey) (v : Stmt) :
    bufKeys (dictInsert buf k v) =
      if k ∈ bufKeys buf then bufKeys buf else bufKeys buf ++ [k] := by
  by_cases h : k ∈ bufKeys buf
  · simp only [dictInsert, if_pos h, bufKeys_replace]
  · simp only [dictInsert, if_neg h, bufKeys_append]
    rfl

theorem nodup_dictInsert (buf : List (SKey × Stmt)) (k : SKey) (v : Stmt)
    (h : (bufKeys buf).Nodup) : (bufKeys (dictInsert buf k v)).Nodup := by
  rw [bufKeys_dictInsert]
  by_cases hm : k ∈ bufKeys buf
  · simpa [hm]
  · simp [hm, List.nodup_append, h]

theorem lookupKey_eq_none (buf : List (SKey × Stmt)) (k : SKey)
    (h : k ∉ bufKeys buf) : lookupKey buf k = none := by
  induction buf with
  | nil => rfl
  | cons p rest ih =>
    simp only [bufKeys, List.map_cons, List.mem_cons, not_or] at h
    have h1 : ¬p.1 = k := fun hp => h.1 hp.symm
    have h2 : lookupKey rest k = none := ih (by simpa [bufKeys] using h.2)
    simp [lookupKey, h1, h2]

theorem lookupKey_append (a b : List (SKey × Stmt)) (k : SKey) :
    lookupKey (a ++ b) k =
      match lookupKey a k with
      | some v => some v
      | none => lookupKey b k := by
  induction a with
  | nil => simp [lookupKey]
  | cons p rest ih =>
    by_cases h : p.1 = k <;> simp [lookupKey, h, ih]

theorem lookupKey_replace_self (buf : List (SKey × Stmt)) (k : SKey) (v : Stmt)
    (h : k ∈ bufKeys buf) :
    lookupKey (buf.map fun p => if p.1 = k then (k, v) else p) k = some v := by
  induction buf with
  | nil => simp [bufKeys] at h
  | cons p rest ih =>
    by_cases hp : p.1 = k
    · simp [lookupKey, hp]
    · have hk : k ∈ bufKeys rest := by
        simp only [bufKeys, List.map_cons, List.mem_cons] at h
        exact h.resolve_left fun he => hp he.symm
      simp [lookupKey, hp, ih hk]

theorem lookupKey_replace_other (buf : List (SKey × Stmt)) (k : SKey) (v : Stmt)
    (k' : SKey) (h : k' ≠ k) :
    lookupKey (buf.map fun p => if p.1 = k then (k, v) else p) k' =
      lookupKey buf k' := by
  induction buf with
  | nil => rfl
  | cons p rest ih =>
    by_cases hp : p.1 = k
    · simp [lookupKey, hp, Ne.symm h, ih]
    · simp [lookupKey, hp, ih]

theorem lookupKey_dictInsert (buf : List (SKey × Stmt)) (k : SKey) (v : Stmt)
    (k' : SKey) :
    lookupKey (dictInsert buf k v) k' =
      if k' = k then some v else lookupKey buf k' := by
  by_cases hm : k ∈ bufKeys buf
  · by_cases hk : k' = k
    · subst hk; simp [dictInsert, hm, lookupKey_replace_self buf k' v hm]
    · simp [dictInsert, hm, hk, lookupKey_replace_other buf k v k' hk]
  · by_cases hk : k' = k
    · subst hk
      simp [dictInsert, hm, lookupKey_append, lookupKey_eq_none buf k' hm,
        lookupKey]
    · simp [dictInsert, hm, lookupKey_append, lookupKey, hk, Ne.symm hk]
      cases lookupKey buf k' <;> simp

theorem length_dictInsert (buf : List (SKey × Stmt)) (k : SKey) (v : Stmt) :
    (dictInsert buf k v).length ≤ buf.length + 1 := by
  by_cases h : k ∈ bufKeys buf <;> simp [dictInsert, h]

theorem wellKeyed_dictInsert (buf : List (SKey × Stmt)) (s : Stmt)
    (h : WellKeyed buf) : WellKeyed (dictInsert buf (skey s) s) := by
  intro p hp
  by_cases hm : skey s ∈ bufKeys buf
  · simp only [dictInsert, hm, if_pos, List.mem_map] at hp
    obtain ⟨q, hq, rfl⟩ := hp
    by_cases hq1 : q.1 = skey s
    · simp [hq1]
    · simpa [hq1] using h q hq
  · simp only [dictInsert, hm, if_neg, not_false_iff, List.mem_append,
      List.mem_singleton] at hp
    rcases hp with hp | rfl
    · exact h p hp
    · rfl

/-! ## Helper lemmas: the merge loop and emission traces -/

theorem lastFor_append (t1 t2 : List Stmt) (k : SKey) :
    lastFor (t1 ++ t2) k =
      match lastFor t2 k with
      | some v => some v
      | none => lastFor t1 k := by
  induction t1 with
  | nil =>
    simp only [List.nil_append]
    cases lastFor t2 k <;> simp [lastFor]
  | cons s rest ih =>
    show (match lastFor (rest ++ t2) k with
          | some v => some v
          | none => if skey s = k then some s else none) = _
    rw [ih]
    cases h2 : lastFor t2 k with
    | some v => simp [h2]
    | none => cases hr : lastFor rest k <;> simp [lastFor, h2, hr]

theorem mergeStmts_cons (buf : List (SKey × Stmt)) (s : Stmt) (rest : List Stmt) :
    mergeStmts buf (s :: rest) = mergeStmts (dictInsert buf (skey s) s) rest := rfl

theorem lookupKey_mergeStmts (stmts : List Stmt) :
    ∀ (buf : List (SKey × Stmt)) (k : SKey),
      lookupKey (mergeStmts buf stmts) k =
        match lastFor stmts k with
        | some v => some v
        | none => lookupKey buf k := by
  induction stmts with
  | nil => intro buf k; simp [mergeStmts, lastFor]
  | cons s rest ih =>
    intro buf k
    rw [mergeStmts_cons, ih]
    cases hlf : lastFor rest k with
    | some v => simp [lastFor, hlf]
    | none =>
      by_cases hk : skey s = k
      · simp [lastFor, hlf, hk, lookupKey_dictInsert]
      · simp [lastFor, hlf, hk, lookupKey_dictInsert, Ne.symm hk]

theorem nodup_mergeStmts (stmts : List Stmt) :
    ∀ buf : List (SKey × Stmt), (bufKeys buf).Nodup →
      (bufKeys (mergeStmts buf stmts)).Nodup := by
  induction stmts with
  | nil => intro buf h; exact h
  | cons s rest ih =>
    intro buf h
    rw [mergeStmts_cons]
    exact ih _ (nodup_dictInsert buf (skey s) s h)

theorem wellKeyed_mergeStmts (stmts : List Stmt) :
    ∀ buf : List (SKey × Stmt), WellKeyed buf →
      WellKeyed (mergeStmts buf stmts) := by
  induction stmts with
  | nil => intro buf h; exact h
  | cons s rest ih =>
    intro buf h
    rw [mergeStmts_cons]
    exact ih _ (wellKeyed_dictInsert buf s h)

theorem length_mergeStmts (stmts : List Stmt) :
    ∀ buf : List (SKey × Stmt),
      (mergeStmts buf stmts).length ≤ buf.length + stmts.length := by
  induction stmts with
  | nil => intro buf; simp [mergeStmts]
  | cons s rest ih =>
    intro buf
    rw [mergeStmts_cons]
    have h1 := ih (dictInsert buf (skey s) s)
    have h2 := length_dictInsert buf (skey s) s
    simp only [List.length_cons]
    omega

theorem map_skey_values (buf : List (SKey × Stmt)) (h : WellKeyed buf) :
    buf.map (fun p => skey p.2) = bufKeys buf := by
  induction buf with
  | nil => rfl
  | cons p rest ih =>
    have hp := h p (List.mem_cons_self p rest)
    have hrest : WellKeyed rest := fun q hq => h q (List.mem_cons_of_mem p hq)
    simp [bufKeys, hp.symm, ih hrest]

/-! ## Helper lemmas: emit, runCalls and the controller -/

theorem emit_eq_decompose (st : SysState) (c : EmitCall) :
    emit st c.entity c.target c.unique =
      match decomposeCall st.dataset c with
      | .error e => (st, some e)
      | .ok stmts =>
        (let st3 :=
          if (mergeStmts st.statements stmts).length > 50000 then
            flush { st with statements := mergeStmts st.statements stmts }
          else { st with statements := mergeStmts st.statements stmts }
         ({ st3 with logs := st3.logs ++ [.debug "Emitted"] }, none)) := by
  unfold emit decomposeCall
  cases c.entity.id with
  | none => rfl
  | some eid =>
    dsimp only
    split <;> rfl

/-- Fields of the state that `emit` never touches. -/
theorem emit_frame (st : SysState) (e : Entity) (target : Option Bool)
    (unique : Bool) :
    (emit st e target unique).1.dataset = st.dataset ∧
    (emit st e target unique).1.closes = st.closes ∧
    (emit st e target unique).1.commits = st.commits ∧
    (emit st e target unique).1.rollbacks = st.rollbacks ∧
    (emit st e target unique).1.logCtx = st.logCtx ∧
    (emit st e target unique).1.store.stmtTable = st.store.stmtTable ∧
    (emit st e target unique).1.store.issueTable = st.store.issueTable := by
  unfold emit
  cases e.id with
  | none => simp
  | some eid =>
    dsimp only
    split
    · simp
    · split <;> simp [flush]

/-- Fields of the state that a sequence of `emit` calls never touches. -/
theorem runCalls_frame (cs : List EmitCall) :
    ∀ st : SysState,
      (runCalls st cs).1.dataset = st.dataset ∧
      (runCalls st cs).1.closes = st.closes ∧
      (runCalls st cs).1.commits = st.commits ∧
      (runCalls st cs).1.rollbacks = st.rollbacks ∧
      (runCalls st cs).1.logCtx = st.logCtx ∧
      (runCalls st cs).1.store.stmtTable = st.store.stmtTable ∧
      (runCalls st cs).1.store.issueTable = st.store.issueTable := by
  induction cs with
  | nil => intro st; simp [runCalls]
  | cons c cs ih =>
    intro st
    have he := emit_frame st c.entity c.target c.unique
    rcases hemit : emit st c.entity c.target c.unique with ⟨st2, r⟩
    rw [hemit] at he
    cases r with
    | none =>
      have hr := ih st2
      simp only [runCalls, hemit]
      exact ⟨hr.1.trans he.1, hr.2.1.trans he.2.1, hr.2.2.1.trans he.2.2.1,
        hr.2.2.2.1.trans he.2.2.2.1, hr.2.2.2.2.1.trans he.2.2.2.2.1,
        hr.2.2.2.2.2.1.trans he.2.2.2.2.2.1, hr.2.2.2.2.2.2.trans he.2.2.2.2.2.2⟩
    | some e =>
      simp only [runCalls, hemit]
      exact he

theorem runInv_flush (trace : List Stmt) (st : SysState)
    (h : RunInv trace st) : RunInv trace (flush st) := by
  obtain ⟨h1, h2, h3, h4⟩ := h
  refine ⟨by simp [flush, bufKeys], ?_, ?_, ?_⟩
  · intro p hp; simp [flush] at hp
  · intro k v hv; simp [flush, lookupKey] at hv
  · intro b hb
    simp only [flush, pendingBatches, List.filterMap_append] at hb
    rcases List.mem_append.mp hb with hb | hb
    · exact h4 b hb
    · simp only [List.filterMap_cons, List.filterMap_nil] at hb
      rcases List.mem_singleton.mp hb with rfl
      rw [List.map_map]
      have : (st.statements.map Prod.snd).map skey =
          st.statements.map fun p => skey p.2 := by rw [List.map_map]; rfl
      rw [← List.map_map, this, map_skey_values st.statements h2]
      exact h1

theorem runInv_emit (trace : List Stmt) (st : SysState) (c : EmitCall)
    (stmts : List Stmt) (hd : decomposeCall st.dataset c = .ok stmts)
    (h : RunInv trace st) :
    RunInv (trace ++ stmts) (emit st c.entity c.target c.unique).1 ∧
    (emit st c.entity c.target c.unique).2 = none := by
  obtain ⟨h1, h2, h3, h4⟩ := h
  have hmerged : RunInv (trace ++ stmts)
      { st with statements := mergeStmts st.statements stmts } := by
    refine ⟨nodup_mergeStmts stmts st.statements h1,
      wellKeyed_mergeStmts stmts st.statements h2, ?_, h4⟩
    intro k v hv
    rw [lastFor_append]
    simp only at hv
    rw [lookupKey_mergeStmts] at hv
    cases hlf : lastFor stmts k with
    | some w => rw [hlf] at hv; simp at hv; simp [hv]
    | none => rw [hlf] at hv; exact h3 k v hv
  rw [emit_eq_decompose st c, hd]
  dsimp only
  refine ⟨?_, rfl⟩
  split
  · exact runInv_flush _ _ hmerged
  · exact hmerged

theorem emit_decompose_error (st : SysState) (c : EmitCall) (e : EmitError)
    (hd : decomposeCall st.dataset c = .error e) :
    emit st c.entity c.target c.unique = (st, some e) := by
  rw [emit_eq_decompose st c, hd]

theorem runCalls_inv (cs : List EmitCall) :
    ∀ (trace : List Stmt) (st : SysState), RunInv trace st →
      RunInv (trace ++ traceCalls st.dataset cs) (runCalls st cs).1 := by
  induction cs with
  | nil => intro trace st h; simpa [runCalls, traceCalls]
  | cons c cs ih =>
    intro trace st h
    cases hd : decomposeCall st.dataset c with
    | error e =>
      simp only [runCalls, emit_decompose_error st c e hd, traceCalls, hd]
      simpa
    | ok stmts =>
      obtain ⟨hInv, hnone⟩ := runInv_emit trace st c stmts hd h
      rcases hemit : emit st c.entity c.target c.unique with ⟨st2, r⟩
      rw [hemit] at hInv hnone
      dsimp only at hInv hnone
      subst hnone
      have hds : st2.dataset = st.dataset := by
        have := (emit_frame st c.entity c.target c.unique).1
        rw [hemit] at this; exact this
      have hrec := ih (trace ++ stmts) st2 hInv
      rw [hds] at hrec
      simp only [runCalls, hemit, traceCalls, hd]
      simpa [List.append_assoc] using hrec

theorem crawlEntry_fields (st : SysState) :
    (crawlEntry st).dataset = st.dataset ∧
    (crawlEntry st).closes = st.closes ∧
    (crawlEntry st).commits = st.commits ∧
    (crawlEntry st).rollbacks = st.rollbacks ∧
    (crawlEntry st).logCtx = some st.dataset ∧
    (crawlEntry st).store.stmtTable = st.store.stmtTable ∧
    (crawlEntry st).statements = st.statements := by
  simp [crawlEntry, bind, issueClear]

theorem crawlBody_fst (r : Routine) (st : SysState) :
    (crawlBody r st).1 = (runCalls (crawlEntry st) r.calls).1 := by
  unfold crawlBody
  rcases runCalls (crawlEntry st) r.calls with ⟨st4, rr⟩
  cases rr <;> rfl

/-- Fields of the state as they stand when the `try` block of `crawl`
reaches one of its exception handlers or the success continuation. -/
theorem crawlBody_frame (r : Routine) (st : SysState) :
    (crawlBody r st).1.dataset = st.dataset ∧
    (crawlBody r st).1.closes = st.closes ∧
    (crawlBody r st).1.commits = st.commits ∧
    (crawlBody r st).1.rollbacks = st.rollbacks ∧
    (crawlBody r st).1.logCtx = some st.dataset ∧
    (crawlBody r st).1.store.stmtTable = st.store.stmtTable := by
  have he := crawlEntry_fields st
  have hr := runCalls_frame r.calls (crawlEntry st)
  rw [crawlBody_fst]
  exact ⟨hr.1.trans he.1, hr.2.1.trans he.2.1, hr.2.2.1.trans he.2.2.1,
    hr.2.2.2.1.trans he.2.2.2.1, hr.2.2.2.2.1.trans he.2.2.2.2.1,
    hr.2.2.2.2.2.1.trans he.2.2.2.2.2.1⟩

theorem commit_rollback_stmtTable (s : Store) :
    s.rollback.commit.stmtTable = s.stmtTable := by
  simp [Store.rollback, Store.commit]

/-! ## Claim theorems -/

/-- C3: Close always runs: for every collection routine and every state
entering the Running phase of `crawl`, whatever the outcome (normal
return, interruption, lookup failure, any other exception), `close` is
executed exactly once — the close counter rises by exactly one — and on
every exit path it clears the bound logging context and commits the
store transaction exactly once. -/
theorem crawl_close_always (r : Routine) (st : SysState) :
    (crawl r st).1.closes = st.closes + 1 ∧
    (crawl r st).1.logCtx = none ∧
    (crawl r st).1.commits = st.commits + 1 := by
  have hf := crawlBody_frame r st
  rcases hcb : crawlBody r st with ⟨st1, o⟩
  rw [hcb] at hf
  dsimp only at hf
  unfold crawl
  rw [hcb]
  cases o <;> simp [close, flush, sysRollback, hf.2.1, hf.2.2.1]

/-- C4: Controller failure taxonomy: when the collection routine raises
an interruption, `crawl` rolls back and re-raises it to the caller; when
it raises the strict-lookup failure, `crawl` rolls back, logs the table
name and offending value, and does not propagate; when it raises any
other exception, `crawl` rolls back, logs it with trace information, and
does not propagate. -/
theorem crawl_failure_taxonomy (r : Routine) (st : SysState) :
    ((crawlBody r st).2 = .interrupt →
      (crawl r st).2 = some .interrupt ∧
      (crawl r st).1.rollbacks = st.rollbacks + 1) ∧
    (∀ msg lookupName value,
      (crawlBody r st).2 = .lookupExc msg lookupName value →
      (crawl r st).2 = none ∧
      (crawl r st).1.rollbacks = st.rollbacks + 1 ∧
      LogEntry.errorLookup msg lookupName value ∈ (crawl r st).1.logs) ∧
    (∀ msg, (crawlBody r st).2 = .otherExc msg →
      (crawl r st).2 = none ∧
      (crawl r st).1.rollbacks = st.rollbacks + 1 ∧
      LogEntry.exceptionLog "Crawl failed" ∈ (crawl r st).1.logs) := by
  have hf := crawlBody_frame r st
  rcases hcb : crawlBody r st with ⟨st1, o⟩
  rw [hcb] at hf
  dsimp only at hf
  unfold crawl
  rw [hcb]
  refine ⟨?_, ?_, ?_⟩
  · intro ho
    dsimp only at ho
    subst ho
    simp [close, sysRollback, hf.2.2.2.1]
  · intro msg lookupName value ho
    dsimp only at ho
    subst ho
    simp [close, sysRollback, hf.2.2.2.1]
  · intro msg ho
    dsimp only at ho
    subst ho
    simp [close, sysRollback, hf.2.2.2.1]

/-- C4 witness: the three failure handlings at concrete routines — an
interrupting routine, an unmatched-lookup routine and a routine raising
an unexpected error — from the initial state. -/
theorem crawl_failure_taxonomy_witness :
    ((crawl routineInt initState).2 = some .interrupt ∧
      (crawl routineInt initState).1.rollbacks = initState.rollbacks + 1) ∧
    ((crawl routineLook initState).2 = none ∧
      (crawl routineLook initState).1.rollbacks = initState.rollbacks + 1 ∧
      LogEntry.errorLookup "unmatched value" "countries" "Sealand" ∈
        (crawl routineLook initState).1.logs) ∧
    ((crawl routineBoom initState).2 = none ∧
      (crawl routineBoom initState).1.rollbacks = initState.rollbacks + 1 ∧
      LogEntry.exceptionLog "Crawl failed" ∈ (crawl routineBoom initState).1.logs) :=
  ⟨(crawl_failure_taxonomy routineInt initState).1 rfl,
   (crawl_failure_taxonomy routineLook initState).2.1
     "unmatched value" "countries" "Sealand" rfl,
   (crawl_failure_taxonomy routineBoom initState).2.2 "boom" rfl⟩

/-- C2: Rollback-on-failure atomicity: for every run whose collection
routine raises an unexpected error, the store's committed statement
table after the run equals its state before the run — no partial
statement sets are persisted, even if emit's threshold-triggered flush
ran during the failed collection routine before the error. -/
theorem crawl_rollback_atomic (r : Routine) (st : SysState) (msg : String)
    (h : (crawlBody r st).2 = .otherExc msg) :
    (crawl r st).1.store.stmtTable = st.store.stmtTable := by
  have hf := crawlBody_frame r st
  rcases hcb : crawlBody r st with ⟨st1, o⟩
  rw [hcb] at hf h
  dsimp only at hf h
  subst h
  unfold crawl
  rw [hcb]
  simp [close, sysRollback, Store.rollback, Store.commit, hf.2.2.2.2.2]

/-- C2 witness: a routine that emits an entity and then raises an
unexpected error leaves the committed statement table of the initial
state unchanged. -/
theorem crawl_rollback_atomic_witness :
    (crawl routineBoom initState).1.store.stmtTable = initState.store.stmtTable :=
  crawl_rollback_atomic routineBoom initState "boom" rfl

/-- C1: Dedup last-write-wins: for every sequence of emit calls within
one run, the statement buffer contains at most one statement per
(entity_id, prop, value) key, any statement it holds is the one produced
by the last emit call that yielded that key, and every batch passed to
the store on a flush holds at most one statement per key. -/
theorem dedup_last_write (calls : List EmitCall) (st : SysState)
    (h1 : st.statements = []) (h2 : st.store.pending = []) :
    (bufKeys (runCalls st calls).1.statements).Nodup ∧
    (∀ k v, lookupKey (runCalls st calls).1.statements k = some v →
      lastFor (traceCalls st.dataset calls) k = some v) ∧
    (∀ b ∈ pendingBatches (runCalls st calls).1.store.pending,
      (b.map skey).Nodup) := by
  have h0 : RunInv [] st := by
    refine ⟨?_, ?_, ?_, ?_⟩
    · simp [h1, bufKeys]
    · intro p hp; simp [h1] at hp
    · intro k v hv; rw [h1] at hv; simp [lookupKey] at hv
    · intro b hb; rw [h2] at hb; simp [pendingBatches] at hb
  have hrun := runCalls_inv calls [] st h0
  simp only [List.nil_append] at hrun
  exact ⟨hrun.1, hrun.2.2.1, hrun.2.2.2⟩

/-- C1 witness: two emit calls that both yield the key
("e1", "name", "Example Corp"): the buffer's keys are deduplicated, and
the statement retained for that key is the one from the second call. -/
theorem dedup_last_write_witness :
    (bufKeys (runCalls initState [callA, callB]).1.statements).Nodup ∧
    lastFor (traceCalls initState.dataset [callA, callB])
      ("e1", "name", "Example Corp") = some stmtB :=
  ⟨(dedup_last_write [callA, callB] initState rfl rfl).1,
   (dedup_last_write [callA, callB] initState rfl rfl).2.1
     ("e1", "name", "Example Corp") stmtB (by decide)⟩

/-- C5: Bounded buffer: whenever a single emit call's merge causes the
buffer size to exceed the fixed threshold of 50000 entries, flush is
triggered synchronously before emit returns (the buffer is emptied and
the batch handed to the store); at the threshold check the buffer never
holds more than the threshold plus that one emit call's worth of
statements; and the buffer `emit` leaves behind never exceeds the
threshold. -/
theorem emit_bounded (st : SysState) (e : Entity) (target : Option Bool)
    (unique : Bool) (eid : String) (stmts : List Stmt)
    (hid : e.id = some eid)
    (hs : stmts = Statement.from_entity st.dataset (applyTarget e target) eid unique)
    (hne : stmts ≠ []) :
    ((mergeStmts st.statements stmts).length > 50000 →
      (emit st e target unique).1.statements = [] ∧
      (emit st e target unique).1.store.pending = st.store.pending ++
        [.upsertStmts ((mergeStmts st.statements stmts).map Prod.snd)]) ∧
    (st.statements.length ≤ 50000 →
      (mergeStmts st.statements stmts).length ≤ 50000 + stmts.length) ∧
    ((emit st e target unique).1.statements.length ≤ 50000) := by
  subst hs
  unfold emit
  rw [hid]
  dsimp only
  rw [if_neg (by simpa using hne)]
  refine ⟨?_, ?_, ?_⟩
  · intro hgt
    rw [if_pos hgt]
    simp [flush]
  · intro _
    have := length_mergeStmts
      (Statement.from_entity st.dataset (applyTarget e target) eid unique)
      st.statements
    omega
  · by_cases hgt :
      (mergeStmts st.statements
        (Statement.from_entity st.dataset (applyTarget e target) eid unique)).length > 50000
    · rw [if_pos hgt]; simp [flush]
    · rw [if_neg hgt]; dsimp only; omega

/-- C5 witness: the theorem applied to a concrete successful emit from
the empty initial buffer. -/
theorem emit_bounded_witness :
    (emit initState entA none false).1.statements.length ≤ 50000 :=
  (emit_bounded initState entA none false "e1" _ rfl rfl (by decide)).2.2

/-- C9: Emit preconditions: emit fails with the missing-identifier error
when the entity's identifier is null, fails with the empty-entity error
when decomposition of the entity yields no statements, and otherwise
succeeds and merges the decomposed statements into the buffer. -/
theorem emit_preconditions (st : SysState) (e : Entity) (target : Option Bool)
    (unique : Bool) :
    (e.id = none → emit st e target unique = (st, some .missingId)) ∧
    (∀ eid, e.id = some eid →
      Statement.from_entity st.dataset (applyTarget e target) eid unique = [] →
      emit st e target unique = (st, some .emptyEntity)) ∧
    (∀ eid, e.id = some eid →
      Statement.from_entity st.dataset (applyTarget e target) eid unique ≠ [] →
      (emit st e target unique).2 = none ∧
      (¬(mergeStmts st.statements
          (Statement.from_entity st.dataset (applyTarget e target) eid unique)).length > 50000 →
        (emit st e target unique).1.statements =
          mergeStmts st.statements
            (Statement.from_entity st.dataset (applyTarget e target) eid unique))) := by
  refine ⟨?_, ?_, ?_⟩
  · intro h
    unfold emit
    rw [h]
  · intro eid h hempty
    unfold emit
    rw [h]
    dsimp only
    rw [hempty]
    simp
  · intro eid h hne
    unfold emit
    rw [h]
    dsimp only
    rw [if_neg (by simpa using hne)]
    refine ⟨rfl, ?_⟩
    intro hle
    rw [if_neg hle]

/-- C9 witness: the three precondition behaviours at concrete entities —
one with no identifier, one with an identifier but no properties, and a
well-formed one. -/
theorem emit_preconditions_witness :
    emit initState entNoId none false = (initState, some .missingId) ∧
    emit initState entNoProps none false = (initState, some .emptyEntity) ∧
    (emit initState entA none false).2 = none :=
  ⟨(emit_preconditions initState entNoId none false).1 rfl,
   (emit_preconditions initState entNoProps none false).2.1 "e2" rfl rfl,
   ((emit_preconditions initState entA none false).2.2 "e1" rfl (by decide)).1⟩

/-- C10: Emit error atomicity: whenever emit fails — because the
entity's identifier is null or because decomposition yields no
statements — the whole context state, and in particular the statement
buffer, is left exactly as it was before the call. -/
theorem emit_error_leaves_state (st : SysState) (e : Entity)
    (target : Option Bool) (unique : Bool) (err : EmitError)
    (h : (emit st e target unique).2 = some err) :
    (emit st e target unique).1 = st := by
  unfold emit at h ⊢
  cases hid : e.id with
  | none => rfl
  | some eid =>
    rw [hid] at h
    dsimp only at h ⊢
    by_cases hcond :
      (Statement.from_entity st.dataset (applyTarget e target) eid unique).length = 0
    · rw [if_pos hcond]
    · rw [if_neg hcond] at h
      simp at h

/-- C10 witness: a failing emit (entity without identifier) leaves the
initial state untouched. -/
theorem emit_error_leaves_state_witness :
    (emit initState entNoId none false).1 = initState :=
  emit_error_leaves_state initState entNoId none false .missingId rfl

/-- C6: Idempotent fetch: the download runs only when the target path
does not yet exist, and a second `fetch_resource` call with the same
name performs no network I/O (the download log does not grow) and
returns the same path as the first call. -/
theorem fetch_resource_idempotent (fs : FsState)
    (datasetPath name url url2 : String) :
    (get_resource_path datasetPath name ∈ fs.files →
      fetch_resource fs datasetPath name url =
        (fs, get_resource_path datasetPath name)) ∧
    ((fetch_resource (fetch_resource fs datasetPath name url).1
        datasetPath name url2).2 =
      (fetch_resource fs datasetPath name url).2 ∧
     (fetch_resource (fetch_resource fs datasetPath name url).1
        datasetPath name url2).1.downloads =
      (fetch_resource fs datasetPath name url).1.downloads) := by
  constructor
  · intro h
    simp [fetch_resource, h]
  · by_cases h : get_resource_path datasetPath name ∈ fs.files
    · simp [fetch_resource, h]
    · simp [fetch_resource, h, fetch_download]

/-- C6 witness: when the resource file already exists, `fetch_resource`
returns its path and performs no download. -/
theorem fetch_resource_idempotent_witness :
    fetch_resource fsHasFile "datasets/us_bis_denied" "dpl.tsv" "http://a" =
      (fsHasFile, get_resource_path "datasets/us_bis_denied" "dpl.tsv") :=
  (fetch_resource_idempotent fsHasFile "datasets/us_bis_denied" "dpl.tsv"
    "http://a" "http://b").1 (by decide)

/-- C7: Lookup contract: for every table and raw value with no matching
rule, `lookup_value` returns the default rather than failing, while the
strict `lookup` fails with the structured unmatched-lookup failure
carrying the table name and the raw value. -/
theorem lookup_contract (t : LookupTable) (value : String)
    (default : Option String) (h : t.findRule value = none) :
    lookup_value t value default = default ∧
    Context.lookup t value = .error
      { message := "unmatched value", lookupName := t.name, value := value } := by
  constructor
  · unfold lookup_value LookupTable.get_value
    rw [h]
    by_cases hr : t.required <;> simp [hr]
  · unfold Context.lookup LookupTable.matchValue
    rw [h]

/-- C7 witness: "USA" has no rule in the country-codes table, so the
defaulted lookup returns "ZZ" while the strict lookup fails with the
table name and the raw value. -/
theorem lookup_contract_witness :
    lookup_value tableCC "USA" (some "ZZ") = some "ZZ" ∧
    Context.lookup tableCC "USA" = .error
      { message := "unmatched value", lookupName := "country_codes",
        value := "USA" } :=
  lookup_contract tableCC "USA" (some "ZZ") (by decide)

/-- C8: the claim fails on the code: for a call to `export_resource`
with `mime_type` not supplied, the code evaluates `mimetypes.guess(path)`
— an attribute the Python `mimetypes` module does not define (the
extension-inference function is `mimetypes.guess_type`) — so the call
raises `AttributeError` instead of inferring the MIME type and
registering the resource. -/
theorem export_resource_attribute_error :
    export_resource [104, 105] "datasets/us_bis_denied" "us_bis_denied"
      "datasets/us_bis_denied/dpl.tsv" none none =
      .error (.attributeError "mimetypes" "guess") := by
  simp [export_resource, mimetypesAttrs]

end OpenSanctions
